import Mathlib

/-!
Shallow embedding of the force-directed CV graph visualizer
(`src/visualization.ts`) and the CV tree data module (`src/data.ts`).

JavaScript numbers are modelled as rationals (`ℚ`); the claims under
study are exact linear-arithmetic statements, so this is faithful where
it matters.  Optional fields (`x?: number`, `vx` possibly undefined) are
modelled as `Option ℚ`.  DOM state is modelled as the lists of keyed
elements the renderer maintains; timers as explicit event traces.
-/

namespace Viz

/-- The derived geometry/scale configuration
(`GraphVisualizer.config` in `src/visualization.ts`). -/
structure Config where
  linkDistanceUnit : ℚ
  chargeStrength : ℚ
  circleRadiusUnit : ℚ
  deriving Repr, DecidableEq

/-- The configuration computed in the constructor (lines 40-45 of
`src/visualization.ts`) and again in the resize handler (lines 235-238):
`sizeFactor = min(clientWidth, clientHeight) / 1000`, then
`linkDistanceUnit = 300 * sizeFactor`, `circleRadiusUnit = 80 * sizeFactor`,
`chargeStrength = -60 * sizeFactor`. -/
def computeConfig (w h : ℚ) : Config :=
  let sizeFactor := min w h / 1000
  { linkDistanceUnit := 300 * sizeFactor
    circleRadiusUnit := 80 * sizeFactor
    chargeStrength := -60 * sizeFactor }

/-- A simulation node (`Node` in `src/visualization.ts`): `relSize` and
`relDistance` are required, position and velocity may be undefined
(`x?: number`; `vx`/`vy` come from `d3.SimulationNodeDatum` and may be
undefined before the simulation initializes them). The string payload
(`id`, `image`, `description`) is irrelevant to the force claims and is
carried only where a claim needs it. -/
structure VNode where
  relSize : ℚ
  relDistance : ℚ
  x : Option ℚ
  y : Option ℚ
  vx : Option ℚ
  vy : Option ℚ
  deriving Repr, DecidableEq

/-- A node's disc radius, `relSize × circleRadiusUnit`
(glossary "Disc"; used at lines 104, 108, 260 of `src/visualization.ts`). -/
def discRadius (circleRadiusUnit : ℚ) (n : VNode) : ℚ :=
  n.relSize * circleRadiusUnit

/-- The radius the collision force assigns to a node
(`applyCollideForce`, line 292 of `src/visualization.ts`):
`d => d.relSize * this.config.circleRadiusUnit + 10` — the disc radius
plus a buffer of 10. -/
def collideRadius (circleRadiusUnit : ℚ) (n : VNode) : ℚ :=
  n.relSize * circleRadiusUnit + 10

/-- Parameters captured by the custom boundary force at registration
time (line 283 of `src/visualization.ts`): the SVG client width/height
and `strength = 0.3`. -/
structure BoundaryParams where
  width : ℚ
  height : ℚ
  strength : ℚ
  deriving Repr, DecidableEq

/-- One node's update under the custom boundary force
(`applyBoundaryForce`, lines 257-278 of `src/visualization.ts`).
Each branch requires the position and the matching velocity component to
be defined (`x !== undefined && vx !== undefined`), compares the
position against `radius` / `width - radius` (resp. `height`), and adds
`(limit - pos) * strength * alpha` to the velocity component.  Only
`vx`/`vy` are ever assigned. -/
def boundaryForceNode (params : BoundaryParams) (circleRadiusUnit : ℚ)
    (alpha : ℚ) (node : VNode) : VNode :=
  let radius := node.relSize * circleRadiusUnit
  let xminlim := radius
  let xmaxlim := params.width - radius
  let yminlim := radius
  let ymaxlim := params.height - radius
  let node1 :=
    match node.x, node.vx with
    | some x, some vx =>
        if x ≤ xminlim then
          { node with vx := some (vx + (xminlim - x) * params.strength * alpha) }
        else if x ≥ xmaxlim then
          { node with vx := some (vx + (xmaxlim - x) * params.strength * alpha) }
        else node
    | _, _ => node
  match node1.y, node1.vy with
  | some y, some vy =>
      if y ≤ yminlim then
        { node1 with vy := some (vy + (yminlim - y) * params.strength * alpha) }
      else if y ≥ ymaxlim then
        { node1 with vy := some (vy + (ymaxlim - y) * params.strength * alpha) }
      else node1
  | _, _ => node1

/-- The boundary force applied to the whole node collection
(the `for (const node of this.simulation.nodes())` loop). -/
def applyBoundaryForce (params : BoundaryParams) (circleRadiusUnit : ℚ)
    (alpha : ℚ) (nodes : List VNode) : List VNode :=
  nodes.map (boundaryForceNode params circleRadiusUnit alpha)

/-! ### Scene renderer: the DOM state maintained by `update()` -/

/-- The node data the diff/update step keys on (`d => d.id`). -/
structure DNode where
  id : String
  relSize : ℚ
  deriving Repr, DecidableEq

/-- D3's identity-keyed join on one element class: existing elements
whose key matches a datum persist (in document order), the rest exit and
are removed (`exit => exit.remove()`), and data with no matching element
enter and are appended after the persisting ones. -/
def joinKeys {α : Type} [DecidableEq α] (ids existing : List α) : List α :=
  existing.filter (fun g => g ∈ ids) ++ ids.filter (fun i => i ∉ existing)

/-- The DOM/SVG state the renderer maintains: the keyed `.node` groups
inside the main group, the keyed `.link` lines, the per-node `pattern`
definitions appended to the root SVG (line 113-127; note nothing ever
removes a pattern), and the number of tooltip elements appended to
`document.body` (lines 129-130). -/
structure DomState where
  nodeGroups : List String
  lines : List (String × String)
  patterns : List String
  bodyTooltips : ℕ
  deriving Repr, DecidableEq

/-- The empty document the visualizer starts from. -/
def DomState.empty : DomState :=
  { nodeGroups := [], lines := [], patterns := [], bodyTooltips := 0 }

/-- The DOM effect of one `update()` call
(lines 85-183 of `src/visualization.ts`):
* `.node` groups are joined against `nodes` keyed by `d.id`;
* each *entering* node also appends a `pattern` definition with id
  `'pattern' + d.id` to the SVG root (`nodeEnter.each(...)`);
* the enter callback of `.join` runs on every call, whether or not any
  node enters, and unconditionally executes
  `let tip = new Tooltip(); document.body.appendChild(tip.getNode())`
  (lines 129-130), appending one tooltip element to the body;
* `.link` lines are joined keyed by `source.id + '-' + target.id`
  (modelled as the id pair), with `update => update` leaving persisting
  lines untouched. -/
def updateDom (nodes : List DNode) (links : List (String × String))
    (dom : DomState) : DomState :=
  let ids := nodes.map (·.id)
  let enteringIds := ids.filter (fun i => i ∉ dom.nodeGroups)
  { nodeGroups := joinKeys ids dom.nodeGroups
    lines := joinKeys links dom.lines
    patterns := dom.patterns ++ enteringIds.map (fun i => "pattern" ++ i)
    bodyTooltips := dom.bodyTooltips + 1 }

/-- The visualizer state the public `addNode`/`addLink` API mutates. -/
structure GVState where
  nodes : List DNode
  links : List (String × String)
  dom : DomState
  deriving Repr, DecidableEq

/-- A call to the public API. -/
inductive GVOp : Type
  | addNode (n : DNode)
  | addLink (l : String × String)
  deriving Repr, DecidableEq

/-- `addNode` pushes the node and calls `update()`; `addLink` pushes the
link and calls `update()` (lines 75-83 of `src/visualization.ts`). -/
def GVState.step (st : GVState) : GVOp → GVState
  | .addNode n =>
      let nodes := st.nodes ++ [n]
      { st with nodes := nodes, dom := updateDom nodes st.links st.dom }
  | .addLink l =>
      let links := st.links ++ [l]
      { st with links := links, dom := updateDom st.nodes links st.dom }

/-- Run a sequence of `addNode`/`addLink` calls. -/
def GVState.run (st : GVState) : List GVOp → GVState
  | [] => st
  | op :: ops => (st.step op).run ops

/-! ### Responsive controller: resize handler and debounce -/

/-- The captured values of the force terms re-registered by
`applyAllForces` (lines 295-300): the charge strength
(`forceManyBody().strength(config.chargeStrength)`), the center point
and strength (`forceCenter(clientWidth/2, clientHeight/2).strength(0.1)`),
and the boundary parameters (width, height, `strength: 0.3`).  The
collide radius and link distance callbacks read `this.config` live
rather than capturing values. -/
structure Forces where
  chargeStrength : ℚ
  centerX : ℚ
  centerY : ℚ
  centerStrength : ℚ
  boundary : BoundaryParams
  deriving Repr, DecidableEq

/-- `applyAllForces` as a function of the current config and viewport. -/
def applyAllForces (config : Config) (w h : ℚ) : Forces :=
  { chargeStrength := config.chargeStrength
    centerX := w / 2
    centerY := h / 2
    centerStrength := 1/10
    boundary := { width := w, height := h, strength := 3/10 } }

/-- The visualizer state the resize handler can touch: the config, the
registered forces, the simulation alpha, and the already-rendered DOM
attribute values — each node circle's `r` and each pattern's size, which
were written once at enter time with the then-current
`circleRadiusUnit`. -/
structure VisState where
  config : Config
  forces : Forces
  alpha : ℚ
  running : Bool
  circleRadii : List ℚ
  patternSizes : List ℚ
  deriving Repr, DecidableEq

/-- The body of the resize debounce timer callback
(lines 233-243 of `src/visualization.ts`): recompute `sizeFactor` from
the current client size, overwrite the three config fields, call
`applyAllForces()`, and `simulation.alpha(1).restart()`.  It touches no
DOM element: rendered circle radii and pattern sizes keep the attribute
values written when their nodes entered. -/
def resizeHandler (w h : ℚ) (st : VisState) : VisState :=
  let config := computeConfig w h
  { st with
    config := config
    forces := applyAllForces config w h
    alpha := 1
    running := true }

/-- The debounce delay for resize handling
(`setTimeout(..., 500)`, line 243 of `src/visualization.ts`). -/
def resizeDebounceDelay : ℚ := 500

/-- The times at which the debounced resize recomputation fires, given
the (time-ordered) times of the incoming resize signals.  Each signal
clears any pending timer (`clearTimeout(lastResizeTimeout)`) and starts
a new one for `delay` later; a pending timer fires only if the next
signal arrives no earlier than its deadline.  Each fire runs
`resizeHandler` once. -/
def debounceFires (delay : ℚ) : List ℚ → List ℚ
  | [] => []
  | [t] => [t + delay]
  | t :: u :: rest =>
      if t + delay ≤ u then (t + delay) :: debounceFires delay (u :: rest)
      else debounceFires delay (u :: rest)

/-! ### Tick callback -/

/-- A link as the tick callback sees it: two endpoint nodes
(`source` the parent, `target` the child). -/
structure MLink where
  source : VNode
  target : VNode
  deriving Repr, DecidableEq

/-- One attribute pass of `ticked` over the link selection: d3 applies
the accessor to every element in order; `d.source?.x ?? assert.fail()`
throws on the first undefined coordinate. -/
def attrPass (get : MLink → Option ℚ) : List MLink → Except Unit (List ℚ)
  | [] => .ok []
  | l :: ls =>
      match get l with
      | some v => (attrPass get ls).map (fun vs => v :: vs)
      | none => .error ()

/-- What one tick writes into the DOM: the four endpoint coordinate
lists for the lines, and each node group's translation target.  A node
transform is written even when `x`/`y` are undefined (the template
string does not assert), so transforms keep `Option`. -/
structure TickOutput where
  x1 : List ℚ
  y1 : List ℚ
  x2 : List ℚ
  y2 : List ℚ
  transforms : List (Option ℚ × Option ℚ)
  deriving Repr, DecidableEq

/-- The tick callback (`ticked`, lines 213-221 of `src/visualization.ts`):
sets `x1`, `y1`, `x2`, `y2` on every line from the link endpoints,
asserting on any undefined coordinate, then sets every node group's
transform to `translate(x, y)`.  The thrown assertion is modelled as
`Except.error`. -/
def ticked (links : List MLink) (nodes : List VNode) : Except Unit TickOutput :=
  match attrPass (fun l => l.source.x) links with
  | .error e => .error e
  | .ok x1 =>
    match attrPass (fun l => l.source.y) links with
    | .error e => .error e
    | .ok y1 =>
      match attrPass (fun l => l.target.x) links with
      | .error e => .error e
      | .ok x2 =>
        match attrPass (fun l => l.target.y) links with
        | .error e => .error e
        | .ok y2 =>
            .ok { x1 := x1, y1 := y1, x2 := x2, y2 := y2
                  transforms := nodes.map (fun n => (n.x, n.y)) }

end Viz

namespace Data

/-!
Embedding of `src/data.ts`: the static CV tree.  The rich-text
`description` payload is inert for the claims and is not modelled.
JS object identity (the `tree.item === item` test in `findItem`) is
modelled by a `ref` field: every item allocated by `addItem` gets a
fresh number.
-/

/-- `CVItem` from `src/data.ts` (minus the inert `description`). -/
structure CVItem where
  picture : String
  depth : ℕ
  relDistance : ℚ
  relSize : ℚ
  ref : ℕ
  deriving Repr, DecidableEq

/-- `CVInfo` from `src/data.ts`: the caller may supply `relDistance`
and `relSize`, otherwise they are derived from the parent. -/
structure CVInfo where
  picture : String
  relDistance : Option ℚ
  relSize : Option ℚ
  deriving Repr, DecidableEq

/-- `Tree` from `src/data.ts`: an item and its children. -/
inductive Tree : Type
  | node (item : CVItem) (children : List Tree)

mutual

/-- `walkTree` inside `findItem`: return the first item matching the
reference, walking the current node then the children in order. -/
def findInTree (r : ℕ) : Tree → Option CVItem
  | .node item children => if item.ref = r then some item else findInForest r children

/-- `walkTree` over a child list. -/
def findInForest (r : ℕ) : List Tree → Option CVItem
  | [] => none
  | t :: ts =>
      match findInTree r t with
      | some x => some x
      | none => findInForest r ts

end

mutual

/-- `parentTree.children.push({item, children: []})`: append the child
under the (unique) node whose item has reference `r`. -/
def pushChildTree (r : ℕ) (c : Tree) : Tree → Tree
  | .node item children =>
      if item.ref = r then .node item (children ++ [c])
      else .node item (pushChildForest r c children)

/-- `pushChildTree` over a child list. -/
def pushChildForest (r : ℕ) (c : Tree) : List Tree → List Tree
  | [] => []
  | t :: ts => pushChildTree r c t :: pushChildForest r c ts

end

/-- The mutable module state: the tree and the next allocation
reference. -/
structure BuildState where
  tree : Tree
  nextRef : ℕ

/-- `addItem(info, parent)` from `src/data.ts` (lines 41-60):
find the parent's subtree (`findItem`, asserting if absent — modelled
by leaving the state unchanged on the impossible miss), compute
`newRelSize` (`parent.depth >= 2 ? parent.relSize : parent.relSize * 0.65`),
build the child with `depth + 1`,
`relDistance = info.relDistance ?? parent.relDistance * 0.6` and
`relSize = info.relSize ?? newRelSize`, and push it under the parent. -/
def addItem (info : CVInfo) (parentRef : ℕ) (st : BuildState) : BuildState :=
  match findInTree parentRef st.tree with
  | none => st
  | some parent =>
      let newRelSize := if parent.depth ≥ 2 then parent.relSize else parent.relSize * 0.65
      let item : CVItem :=
        { picture := info.picture
          depth := parent.depth + 1
          relDistance := info.relDistance.getD (parent.relDistance * 0.6)
          relSize := info.relSize.getD newRelSize
          ref := st.nextRef }
      { tree := pushChildTree parentRef (.node item []) st.tree
        nextRef := st.nextRef + 1 }

/-- `rootItem` (line 23 of `src/data.ts`):
`{picture: "/static/images/profile.jpg", depth: 0, relSize: 1, relDistance: 1}`,
allocated with reference 0. -/
def rootItem : CVItem :=
  { picture := "/static/images/profile.jpg", depth := 0, relDistance := 1, relSize := 1, ref := 0 }

/-- `const tree = {item: rootItem, children: []}` plus the allocator. -/
def initState : BuildState := { tree := .node rootItem [], nextRef := 1 }

/-- Every `addItem` call in the module passes only a picture (and a
description, not modelled): no explicit `relSize`/`relDistance`. -/
def mkInfo (p : String) : CVInfo := { picture := p, relDistance := none, relSize := none }

/-- The module's 27 `addItem` calls (lines 67-201 of `src/data.ts`), in
source order, each given as (info, parent reference).  References are
allocation order: root = 0, `cvNode` = 1, `hsuNode` = 2,
`experiencesNode` = 3, `iustNode` = 4, `kaggleNode` = 5,
`rahmatMlNode` = 6, `linkNode` = 7, `emailNode` = 8,
`linkedinNode` = 9, `githubNode` = 10, `telegramNode` = 11,
`rahmatJsNode` = 12, `funCodingLab` = 13, `hsuLugNode` = 14,
`hsuSscNode` = 15, `hsuGithubNode` = 16, `icpcNode` = 17,
`codeforces` = 18, `ctrlAltDefeatNode` = 19, `nutellaNode` = 20,
`onlyfansNode` = 21, `rahmatCpNode` = 22, `neshanNode` = 23,
`partSoftwareGroupNode` = 24, `rahmasirNode` = 25, `snappMapNode` = 26,
`yaranNode` = 27. -/
def moduleCalls : List (CVInfo × ℕ) :=
  [ (mkInfo "/static/images/cv.png", 0)
  , (mkInfo "/static/images/hsu.png", 0)
  , (mkInfo "/static/images/construction.png", 0)
  , (mkInfo "/static/images/iust.png", 0)
  , (mkInfo "/static/images/kaggle.png", 4)
  , (mkInfo "/static/images/rahmat-ml.png", 4)
  , (mkInfo "/static/images/link.png", 0)
  , (mkInfo "/static/images/email.png", 7)
  , (mkInfo "/static/images/linkedin.png", 7)
  , (mkInfo "/static/images/github.png", 7)
  , (mkInfo "/static/images/telegram.png", 7)
  , (mkInfo "/static/images/rahmat-js.png", 10)
  , (mkInfo "/static/images/funcodinglab.png", 10)
  , (mkInfo "/static/images/lug.jpg", 2)
  , (mkInfo "/static/images/ssc-hsu.jpg", 2)
  , (mkInfo "/static/images/github.png", 2)
  , (mkInfo "/static/images/icpc.png", 2)
  , (mkInfo "/static/images/codeforces.png", 17)
  , (mkInfo "/static/images/ctrl-alt-defeat.jpg", 17)
  , (mkInfo "/static/images/nutella.jpg", 17)
  , (mkInfo "/static/images/github.png", 17)
  , (mkInfo "/static/images/rahmat-cp.png", 17)
  , (mkInfo "/static/images/neshan.png", 3)
  , (mkInfo "/static/images/part.png", 3)
  , (mkInfo "/static/images/rahmasir.png", 23)
  , (mkInfo "/static/images/snapp.png", 23)
  , (mkInfo "/static/images/yaran.jpg", 3)
  ]

/-- Running the module script: the tree exported by `getTree()`. -/
def dataTree : Tree :=
  (moduleCalls.foldl (fun st c => addItem c.1 c.2 st) initState).tree

mutual

/-- All items of a tree, root first. -/
def treeItems : Tree → List CVItem
  | .node item children => item :: forestItems children

/-- All items of a forest. -/
def forestItems : List Tree → List CVItem
  | [] => []
  | t :: ts => treeItems t ++ forestItems ts

end

/-- Every item of the tree has strictly positive `relSize` and
`relDistance`. -/
def AllPos (t : Tree) : Prop :=
  ∀ it ∈ treeItems t, 0 < it.relSize ∧ 0 < it.relDistance

end Data

namespace Viz

/-! ### Lemmas about the boundary force -/

/-- The boundary force writes only velocity components: position is
returned unchanged for every node. -/
theorem boundaryForceNode_pos (params : BoundaryParams) (cru alpha : ℚ)
    (node : VNode) :
    (boundaryForceNode params cru alpha node).x = node.x ∧
      (boundaryForceNode params cru alpha node).y = node.y := by
  rcases node with ⟨rs, rd, x, y, vx, vy⟩
  rw [boundaryForceNode]
  rcases x with _ | x <;> rcases vx with _ | vx <;>
    rcases y with _ | y <;> rcases vy with _ | vy <;>
    refine ⟨?_, ?_⟩ <;> (try dsimp only) <;> (repeat' split) <;> rfl

/-- A node strictly inside the box (center farther than its disc radius
from every wall) is returned entirely unchanged. -/
theorem boundaryForceNode_interior (params : BoundaryParams) (cru alpha : ℚ)
    (node : VNode) (x y : ℚ) (hx : node.x = some x) (hy : node.y = some y)
    (h1 : discRadius cru node < x) (h2 : x < params.width - discRadius cru node)
    (h3 : discRadius cru node < y) (h4 : y < params.height - discRadius cru node) :
    boundaryForceNode params cru alpha node = node := by
  rcases node with ⟨rs, rd, nx, ny, vx, vy⟩
  cases hx
  cases hy
  rw [discRadius] at h1 h2 h3 h4
  dsimp only at h1 h2 h3 h4
  rw [boundaryForceNode]
  rcases vx with _ | vx <;> rcases vy with _ | vy <;> (try dsimp only) <;>
    simp only [ge_iff_le, not_le.mpr h1, not_le.mpr h2, not_le.mpr h3,
      not_le.mpr h4, if_false]

/-! ### Lemmas about the keyed join -/

/-- Everything produced by a keyed join is a key of the joined data. -/
theorem mem_ids_of_mem_joinKeys {α : Type} [DecidableEq α] {ids existing : List α}
    {a : α} (h : a ∈ joinKeys ids existing) : a ∈ ids := by
  rcases List.mem_append.mp h with h | h <;> simp [List.mem_filter] at h
  · exact h.2
  · exact h.1

/-- Every key of the joined data ends up in the keyed join. -/
theorem mem_joinKeys_of_mem_ids {α : Type} [DecidableEq α] {ids existing : List α}
    {a : α} (h : a ∈ ids) : a ∈ joinKeys ids existing := by
  by_cases hm : a ∈ existing
  · exact List.mem_append.mpr (Or.inl (List.mem_filter.mpr ⟨hm, by simpa⟩))
  · exact List.mem_append.mpr (Or.inr (List.mem_filter.mpr ⟨h, by simpa⟩))

/-- A keyed join is stable: joining the same data again changes no
element. -/
theorem joinKeys_idem {α : Type} [DecidableEq α] (ids existing : List α) :
    joinKeys ids (joinKeys ids existing) = joinKeys ids existing := by
  conv_lhs => rw [joinKeys]
  rw [List.filter_eq_self.mpr (fun a ha => by simpa using mem_ids_of_mem_joinKeys ha),
    List.filter_eq_nil_iff.mpr (fun a ha => by simpa using mem_joinKeys_of_mem_ids ha),
    List.append_nil]

/-! ### Lemmas about the tick callback -/

/-- An attribute pass asserts exactly when the accessor is undefined on
some element. -/
theorem attrPass_error_iff (get : MLink → Option ℚ) (ls : List MLink) :
    attrPass get ls = .error () ↔ ∃ l ∈ ls, get l = none := by
  induction ls with
  | nil => simp [attrPass]
  | cons l ls ih =>
      rw [attrPass]
      cases hg : get l with
      | none => exact iff_of_true rfl ⟨l, List.mem_cons_self _ _, hg⟩
      | some v =>
          cases hp : attrPass get ls with
          | ok vs =>
              rw [hp] at ih
              simp only [Except.map, List.mem_cons]
              constructor
              · intro h; cases h
              · rintro ⟨a, ha | ha, hn⟩
                · rw [ha, hg] at hn; cases hn
                · cases (ih.mpr ⟨a, ha, hn⟩)
          | error e =>
              cases e
              rw [hp] at ih
              simp only [Except.map, List.mem_cons]
              constructor
              · intro _
                obtain ⟨a, ha, hn⟩ := ih.mp rfl
                exact ⟨a, Or.inr ha, hn⟩
              · intro _; trivial

/-- Joining data against an already-joined document leaves nothing to
enter. -/
theorem joinKeys_entering_nil {α : Type} [DecidableEq α] (ids existing : List α) :
    ids.filter (fun i => i ∉ joinKeys ids existing) = [] :=
  List.filter_eq_nil_iff.mpr (fun a ha => by simpa using mem_joinKeys_of_mem_ids ha)

/-- An attribute pass with every accessor defined returns all the
values, in order. -/
theorem attrPass_ok (get : MLink → Option ℚ) (ls : List MLink)
    (h : ∀ l ∈ ls, get l ≠ none) :
    attrPass get ls = .ok (ls.map (fun l => (get l).getD 0)) := by
  induction ls with
  | nil => rfl
  | cons l ls ih =>
      rw [attrPass]
      cases hg : get l with
      | none => exact absurd hg (h l (List.mem_cons_self _ _))
      | some v =>
          rw [ih (fun a ha => h a (List.mem_cons_of_mem _ ha))]
          simp [Except.map, hg]

/-- The tick callback asserts exactly when some link endpoint has an
undefined coordinate. -/
theorem ticked_error_iff (links : List MLink) (nodes : List VNode) :
    ticked links nodes = .error () ↔
      ∃ l ∈ links, l.source.x = none ∨ l.source.y = none ∨
        l.target.x = none ∨ l.target.y = none := by
  rw [ticked]
  cases hp1 : attrPass (fun l => l.source.x) links with
  | error e =>
      cases e
      obtain ⟨a, ha, hn⟩ := (attrPass_error_iff _ _).mp hp1
      exact iff_of_true rfl ⟨a, ha, Or.inl hn⟩
  | ok x1 =>
      cases hp2 : attrPass (fun l => l.source.y) links with
      | error e =>
          cases e
          obtain ⟨a, ha, hn⟩ := (attrPass_error_iff _ _).mp hp2
          exact iff_of_true rfl ⟨a, ha, Or.inr (Or.inl hn)⟩
      | ok y1 =>
          cases hp3 : attrPass (fun l => l.target.x) links with
          | error e =>
              cases e
              obtain ⟨a, ha, hn⟩ := (attrPass_error_iff _ _).mp hp3
              exact iff_of_true rfl ⟨a, ha, Or.inr (Or.inr (Or.inl hn))⟩
          | ok x2 =>
              cases hp4 : attrPass (fun l => l.target.y) links with
              | error e =>
                  cases e
                  obtain ⟨a, ha, hn⟩ := (attrPass_error_iff _ _).mp hp4
                  exact iff_of_true rfl ⟨a, ha, Or.inr (Or.inr (Or.inr hn))⟩
              | ok y2 =>
                  refine iff_of_false (by simp) ?_
                  rintro ⟨a, ha, hc | hc | hc | hc⟩
                  · exact Except.noConfusion
                      (((attrPass_error_iff _ _).mpr ⟨a, ha, hc⟩).symm.trans hp1)
                  · exact Except.noConfusion
                      (((attrPass_error_iff _ _).mpr ⟨a, ha, hc⟩).symm.trans hp2)
                  · exact Except.noConfusion
                      (((attrPass_error_iff _ _).mpr ⟨a, ha, hc⟩).symm.trans hp3)
                  · exact Except.noConfusion
                      (((attrPass_error_iff _ _).mpr ⟨a, ha, hc⟩).symm.trans hp4)

/-- When every endpoint coordinate is defined, one tick writes exactly
the endpoint coordinates to every line and the position pair to every
node transform. -/
theorem ticked_ok (links : List MLink) (nodes : List VNode)
    (h : ∀ l ∈ links, l.source.x ≠ none ∧ l.source.y ≠ none ∧
      l.target.x ≠ none ∧ l.target.y ≠ none) :
    ticked links nodes = .ok
      { x1 := links.map (fun l => (l.source.x).getD 0)
        y1 := links.map (fun l => (l.source.y).getD 0)
        x2 := links.map (fun l => (l.target.x).getD 0)
        y2 := links.map (fun l => (l.target.y).getD 0)
        transforms := nodes.map (fun n => (n.x, n.y)) } := by
  rw [ticked,
    attrPass_ok _ _ (fun l hl => (h l hl).1),
    attrPass_ok _ _ (fun l hl => (h l hl).2.1),
    attrPass_ok _ _ (fun l hl => (h l hl).2.2.1),
    attrPass_ok _ _ (fun l hl => (h l hl).2.2.2)]

/-- A burst of signals each arriving strictly within the delay of the
previous one coalesces into a single fire, `delay` after the last
signal. -/
theorem debounceFires_chain (delay : ℚ) (ts : List ℚ) (hne : ts ≠ [])
    (hchain : List.Chain' (fun a b => a ≤ b ∧ b < a + delay) ts) :
    debounceFires delay ts = [ts.getLastD 0 + delay] := by
  induction ts with
  | nil => exact absurd rfl hne
  | cons t ts ih =>
      cases ts with
      | nil => rfl
      | cons u rest =>
          rw [debounceFires]
          have h1 := (List.chain'_cons.mp hchain).1
          rw [if_neg (not_le.mpr h1.2),
            ih (by simp) (List.chain'_cons.mp hchain).2]
          simp [List.getLastD_cons]

/-- Every `addNode`/`addLink` call appends exactly one tooltip element
to `document.body`. -/
theorem run_bodyTooltips (ops : List GVOp) (st : GVState) :
    (st.run ops).dom.bodyTooltips = st.dom.bodyTooltips + ops.length := by
  induction ops generalizing st with
  | nil => rfl
  | cons op ops ih =>
      have hstep : (st.step op).dom.bodyTooltips = st.dom.bodyTooltips + 1 := by
        cases op <;> rfl
      rw [GVState.run, ih, hstep, List.length_cons]
      omega

end Viz

namespace Data

/-! ### Lemmas about the tree operations -/


/-- `forestItems` distributes over append. -/
theorem forestItems_append (as bs : List Tree) :
    forestItems (as ++ bs) = forestItems as ++ forestItems bs := by
  induction as with
  | nil => simp [forestItems]
  | cons t ts ih => simp [forestItems, ih]

mutual

/-- An item found by `findItem` is an item of the tree. -/
theorem findInTree_mem (r : ℕ) (t : Tree) (it : CVItem)
    (h : findInTree r t = some it) : it ∈ treeItems t := by
  cases t with
  | node item children =>
      rw [findInTree] at h
      by_cases hr : item.ref = r
      · rw [if_pos hr] at h
        cases h
        exact List.mem_cons_self _ _
      · rw [if_neg hr] at h
        exact List.mem_cons_of_mem _ (findInForest_mem r children it h)

/-- An item found in a forest is an item of the forest. -/
theorem findInForest_mem (r : ℕ) (ts : List Tree) (it : CVItem)
    (h : findInForest r ts = some it) : it ∈ forestItems ts := by
  cases ts with
  | nil => exact absurd h (by rw [findInForest]; exact Option.noConfusion)
  | cons t ts =>
      rw [findInForest] at h
      cases hft : findInTree r t with
      | some x =>
          rw [hft] at h
          cases h
          exact List.mem_append.mpr (Or.inl (findInTree_mem r t it hft))
      | none =>
          rw [hft] at h
          exact List.mem_append.mpr (Or.inr (findInForest_mem r ts it h))

end

mutual

/-- Every item of a tree after `pushChildTree` was an item of the tree
or of the pushed child. -/
theorem treeItems_pushChildTree (r : ℕ) (c t : Tree) (it : CVItem)
    (h : it ∈ treeItems (pushChildTree r c t)) :
    it ∈ treeItems t ∨ it ∈ treeItems c := by
  cases t with
  | node item children =>
      rw [pushChildTree] at h
      by_cases hr : item.ref = r
      · rw [if_pos hr, treeItems, forestItems_append] at h
        rcases List.mem_cons.mp h with h1 | h2
        · exact Or.inl (h1 ▸ List.mem_cons_self _ _)
        · rcases List.mem_append.mp h2 with ha | hb
          · exact Or.inl (List.mem_cons_of_mem _ ha)
          · rw [forestItems, forestItems, List.append_nil] at hb
            exact Or.inr hb
      · rw [if_neg hr, treeItems] at h
        rcases List.mem_cons.mp h with h1 | h2
        · exact Or.inl (h1 ▸ List.mem_cons_self _ _)
        · rcases treeItems_pushChildForest r c children it h2 with ha | hb
          · exact Or.inl (List.mem_cons_of_mem _ ha)
          · exact Or.inr hb

/-- Every item of a forest after `pushChildForest` was an item of the
forest or of the pushed child. -/
theorem treeItems_pushChildForest (r : ℕ) (c : Tree) (ts : List Tree) (it : CVItem)
    (h : it ∈ forestItems (pushChildForest r c ts)) :
    it ∈ forestItems ts ∨ it ∈ treeItems c := by
  cases ts with
  | nil => exact absurd (by rwa [pushChildForest] at h) (by rw [forestItems]; simp)
  | cons t ts =>
      rw [pushChildForest, forestItems] at h
      rcases List.mem_append.mp h with h1 | h2
      · rcases treeItems_pushChildTree r c t it h1 with ha | hb
        · exact Or.inl (List.mem_append.mpr (Or.inl ha))
        · exact Or.inr hb
      · rcases treeItems_pushChildForest r c ts it h2 with ha | hb
        · exact Or.inl (List.mem_append.mpr (Or.inr ha))
        · exact Or.inr hb

end

/-- `addItem` preserves positivity when the caller supplies no explicit
`relSize`/`relDistance` (as every call in the module does): the child
inherits `parent.relSize` scaled by `0.65` or `1`, and
`parent.relDistance * 0.6`. -/
theorem addItem_allPos (info : CVInfo) (parentRef : ℕ) (st : BuildState)
    (hs : info.relSize = none) (hd : info.relDistance = none)
    (hall : AllPos st.tree) : AllPos (addItem info parentRef st).tree := by
  rw [addItem]
  cases hf : findInTree parentRef st.tree with
  | none => exact hall
  | some parent =>
      intro it hit
      simp only at hit
      rcases treeItems_pushChildTree _ _ _ _ hit with h1 | h2
      · exact hall it h1
      · rw [treeItems, forestItems] at h2
        rcases List.mem_cons.mp h2 with h3 | h3
        · subst h3
          have hp := hall parent (findInTree_mem _ _ _ hf)
          refine ⟨?_, ?_⟩
          · simp only [hs, Option.getD_none]
            split
            · exact hp.1
            · exact mul_pos hp.1 (by norm_num)
          · simp only [hd, Option.getD_none]
            exact mul_pos hp.2 (by norm_num)
        · cases h3

/-- Folding a list of supplied-value-free `addItem` calls preserves
positivity. -/
theorem foldl_addItem_allPos (calls : List (CVInfo × ℕ)) (st : BuildState)
    (hc : ∀ c ∈ calls, c.1.relSize = none ∧ c.1.relDistance = none)
    (hall : AllPos st.tree) :
    AllPos ((calls.foldl (fun s c => addItem c.1 c.2 s) st).tree) := by
  induction calls generalizing st with
  | nil => exact hall
  | cons c cs ih =>
      rw [List.foldl_cons]
      exact ih _ (fun d hdm => hc d (List.mem_cons_of_mem _ hdm))
        (addItem_allPos _ _ _ (hc c (List.mem_cons_self _ _)).1
          (hc c (List.mem_cons_self _ _)).2 hall)

/-- The full module-built tree has positive `relSize`/`relDistance`
everywhere. -/
theorem dataTree_allPos : AllPos dataTree := by
  apply foldl_addItem_allPos
  · decide
  · intro it hit
    rw [initState] at hit
    rcases List.mem_cons.mp hit with h1 | h1
    · subst h1
      exact ⟨by norm_num [rootItem], by norm_num [rootItem]⟩
    · cases h1

end Data

/-! ## The claims -/

open Viz Data

/-- C1: the configuration computed at construction (and on resize) is
linear in `s = min(w, h)`: `linkDistanceUnit = 0.3 s`,
`circleRadiusUnit = 0.08 s`, `chargeStrength = -0.06 s`, and it is a
pure function of `min(w, h)` with no other inputs. -/
theorem claim_C1_config_linear (w h : ℚ) :
    (computeConfig w h).linkDistanceUnit = 3/10 * min w h ∧
    (computeConfig w h).circleRadiusUnit = 2/25 * min w h ∧
    (computeConfig w h).chargeStrength = -(3/50) * min w h ∧
    computeConfig w h = computeConfig (min w h) (min w h) := by
  refine ⟨?_, ?_, ?_, ?_⟩ <;> simp only [computeConfig, min_self] <;> ring

/-- C2: one application of the boundary force leaves `vx` and `vy`
unchanged, for every `alpha`, on any node whose disc of radius
`r = relSize * circleRadiusUnit` lies strictly inside
`[r, width - r] × [r, height - r]`. -/
theorem claim_C2_boundary_noop_interior (params : BoundaryParams) (cru alpha : ℚ)
    (node : VNode) (x y : ℚ) (hx : node.x = some x) (hy : node.y = some y)
    (h1 : discRadius cru node < x) (h2 : x < params.width - discRadius cru node)
    (h3 : discRadius cru node < y) (h4 : y < params.height - discRadius cru node) :
    (boundaryForceNode params cru alpha node).vx = node.vx ∧
      (boundaryForceNode params cru alpha node).vy = node.vy := by
  rw [boundaryForceNode_interior params cru alpha node x y hx hy h1 h2 h3 h4]
  exact ⟨rfl, rfl⟩

/-- Witness for C2: a concrete interior node (radius 80, center at
(500, 400) in a 1000 × 800 box) keeps its velocity. -/
theorem claim_C2_witness :
    ((⟨1, 1, some 500, some 400, some 3, none⟩ : VNode).x = some 500 ∧
      (⟨1, 1, some 500, some 400, some 3, none⟩ : VNode).y = some 400 ∧
      discRadius 80 ⟨1, 1, some 500, some 400, some 3, none⟩ < 500 ∧
      (500 : ℚ) < 1000 - discRadius 80 ⟨1, 1, some 500, some 400, some 3, none⟩ ∧
      discRadius 80 ⟨1, 1, some 500, some 400, some 3, none⟩ < 400 ∧
      (400 : ℚ) < 800 - discRadius 80 ⟨1, 1, some 500, some 400, some 3, none⟩) ∧
    (boundaryForceNode ⟨1000, 800, 3/10⟩ 80 1 ⟨1, 1, some 500, some 400, some 3, none⟩).vx
        = some 3 ∧
      (boundaryForceNode ⟨1000, 800, 3/10⟩ 80 1 ⟨1, 1, some 500, some 400, some 3, none⟩).vy
        = none :=
  ⟨⟨rfl, rfl, by norm_num [discRadius], by norm_num [discRadius],
      by norm_num [discRadius], by norm_num [discRadius]⟩,
    claim_C2_boundary_noop_interior ⟨1000, 800, 3/10⟩ 80 1
      ⟨1, 1, some 500, some 400, some 3, none⟩ 500 400 rfl rfl
      (by norm_num [discRadius]) (by norm_num [discRadius])
      (by norm_num [discRadius]) (by norm_num [discRadius])⟩

/-- C3: the boundary force only writes velocities; after one
application every node's `x` and `y` equal their previous values (no
hard clamp — a node outside the bounds stays where it is). -/
theorem claim_C3_boundary_velocity_only (params : BoundaryParams) (cru alpha : ℚ)
    (nodes : List VNode) :
    (applyBoundaryForce params cru alpha nodes).map (fun n => (n.x, n.y))
      = nodes.map (fun n => (n.x, n.y)) := by
  induction nodes with
  | nil => rfl
  | cons n ns ih =>
      simp only [applyBoundaryForce, List.map_cons] at ih ⊢
      rw [ih, (boundaryForceNode_pos params cru alpha n).1,
        (boundaryForceNode_pos params cru alpha n).2]

/-- C4 counterexample: for `relSize = 1` and `circleRadiusUnit = 80`
the collision force uses radius 90, not the disc radius 80 — the claim
that collision uses exactly the disc radius with no extra padding is
false. -/
theorem claim_C4_counterexample :
    collideRadius 80 ⟨1, 1, none, none, none, none⟩ ≠
      discRadius 80 ⟨1, 1, none, none, none, none⟩ := by
  norm_num [collideRadius, discRadius]

/-- C4 amended: the collision force treats each node as a disc of
radius `relSize * circleRadiusUnit + 10` — the glossary disc radius
plus a fixed padding of 10. -/
theorem claim_C4_amended (cru : ℚ) (n : VNode) :
    collideRadius cru n = discRadius cru n + 10 := rfl

/-- C5 counterexample: start from a 1000 × 1000 viewport with one
`relSize = 1` node rendered (circle radius 80, pattern size 160) and
resize to 500 × 500.  The handler recomputes `circleRadiusUnit = 40`,
but the rendered circle radius stays 80 (not the claimed
`relSize * circleRadiusUnit = 40`) and the pattern size stays 160 (not
80): the resize handler never updates the rendered elements. -/
theorem claim_C5_counterexample :
    (resizeHandler 500 500
        ⟨computeConfig 1000 1000, applyAllForces (computeConfig 1000 1000) 1000 1000,
          3/10, true, [80], [160]⟩).config.circleRadiusUnit = 40 ∧
    (resizeHandler 500 500
        ⟨computeConfig 1000 1000, applyAllForces (computeConfig 1000 1000) 1000 1000,
          3/10, true, [80], [160]⟩).circleRadii = [80] ∧
    (resizeHandler 500 500
        ⟨computeConfig 1000 1000, applyAllForces (computeConfig 1000 1000) 1000 1000,
          3/10, true, [80], [160]⟩).circleRadii ≠ [40] ∧
    (resizeHandler 500 500
        ⟨computeConfig 1000 1000, applyAllForces (computeConfig 1000 1000) 1000 1000,
          3/10, true, [80], [160]⟩).patternSizes = [160] ∧
    (resizeHandler 500 500
        ⟨computeConfig 1000 1000, applyAllForces (computeConfig 1000 1000) 1000 1000,
          3/10, true, [80], [160]⟩).patternSizes ≠ [80] := by
  norm_num [resizeHandler, computeConfig, applyAllForces]

/-- C5 amended: when the debounce timer fires the handler recomputes
the Config from the current viewport size, reapplies the force terms,
and sets alpha to 1 and restarts the simulation — but it does not touch
the rendered circle radii or pattern definitions, which keep the sizes
written when their nodes entered. -/
theorem claim_C5_amended (w h : ℚ) (st : VisState) :
    resizeHandler w h st =
      { config := computeConfig w h
        forces := applyAllForces (computeConfig w h) w h
        alpha := 1
        running := true
        circleRadii := st.circleRadii
        patternSizes := st.patternSizes } := rfl

/-- C6 counterexample: a second `update()` with the same single node
and no links appends another tooltip element to `document.body`, so the
DOM is not left unchanged. -/
theorem claim_C6_counterexample :
    (updateDom [⟨"a", 1⟩] [] (updateDom [⟨"a", 1⟩] [] DomState.empty)).bodyTooltips = 2 ∧
    (updateDom [⟨"a", 1⟩] [] DomState.empty).bodyTooltips = 1 ∧
    updateDom [⟨"a", 1⟩] [] (updateDom [⟨"a", 1⟩] [] DomState.empty) ≠
      updateDom [⟨"a", 1⟩] [] DomState.empty := by
  refine ⟨rfl, rfl, ?_⟩
  decide

/-- C6 amended: the diff/update step is idempotent on the keyed
elements — a second update with unchanged collections creates and
removes no node group, line or pattern — but each call additionally
appends one new tooltip element to `document.body`. -/
theorem claim_C6_amended (nodes : List DNode) (links : List (String × String))
    (dom : DomState) :
    updateDom nodes links (updateDom nodes links dom) =
      { nodeGroups := (updateDom nodes links dom).nodeGroups
        lines := (updateDom nodes links dom).lines
        patterns := (updateDom nodes links dom).patterns
        bodyTooltips := (updateDom nodes links dom).bodyTooltips + 1 } := by
  simp only [updateDom, DomState.mk.injEq]
  refine ⟨joinKeys_idem _ _, joinKeys_idem _ _, ?_, trivial⟩
  rw [joinKeys_entering_nil, List.map_nil, List.append_nil]

/-- C7 counterexample: two `addNode` calls leave two tooltip elements
on `document.body`, refuting "exactly one tooltip instance exists for
the whole visualizer, for every sequence of addNode/addLink calls". -/
theorem claim_C7_counterexample :
    (GVState.run ⟨[], [], DomState.empty⟩
        [.addNode ⟨"a", 1⟩, .addNode ⟨"b", 1⟩]).dom.bodyTooltips = 2 ∧
    (GVState.run ⟨[], [], DomState.empty⟩
        [.addNode ⟨"a", 1⟩, .addNode ⟨"b", 1⟩]).dom.bodyTooltips ≠ 1 := by
  exact ⟨rfl, by decide⟩

/-- C7 amended: a fresh Tooltip instance is created and appended to
`document.body` by every update — one per `addNode`/`addLink` call — so
after `N` calls `N` tooltip instances exist, and the node interactions
registered by a given update close over that update's tooltip. -/
theorem claim_C7_amended (ops : List GVOp) (st : GVState) :
    (st.run ops).dom.bodyTooltips = st.dom.bodyTooltips + ops.length :=
  run_bodyTooltips ops st

/-- C8: resize signals are debounced by a single pending timer with a
500 ms quiet period: a burst of `N ≥ 1` signals, each arriving within
500 ms of the previous one, produces exactly one configuration
recomputation, 500 ms after the last signal. -/
theorem claim_C8_debounce (ts : List ℚ) (hne : ts ≠ [])
    (hchain : List.Chain' (fun a b => a ≤ b ∧ b < a + resizeDebounceDelay) ts) :
    debounceFires resizeDebounceDelay ts = [ts.getLastD 0 + resizeDebounceDelay] :=
  debounceFires_chain resizeDebounceDelay ts hne hchain

/-- Witness for C8: three signals at 0, 100 and 300 ms fire once, at
800 ms. -/
theorem claim_C8_witness :
    (([(0 : ℚ), 100, 300] : List ℚ) ≠ [] ∧
      List.Chain' (fun a b => a ≤ b ∧ b < a + resizeDebounceDelay)
        [(0 : ℚ), 100, 300]) ∧
    debounceFires resizeDebounceDelay [(0 : ℚ), 100, 300] =
      [List.getLastD [(0 : ℚ), 100, 300] 0 + resizeDebounceDelay] :=
  ⟨⟨by simp, by norm_num [resizeDebounceDelay]⟩,
    claim_C8_debounce [(0 : ℚ), 100, 300] (by simp)
      (by norm_num [resizeDebounceDelay])⟩

/-- C9: the tick callback throws an assertion failure (modelled as
`Except.error`, a fault surfaced to the caller) if and only if some
link has an endpoint with an undefined `x` or `y`; otherwise it writes
each line's endpoints from `source.x/y` and `target.x/y` and each node
group's translation from `(x, y)`. -/
theorem claim_C9_ticked (links : List MLink) (nodes : List VNode) :
    (ticked links nodes = .error () ↔
      ∃ l ∈ links, l.source.x = none ∨ l.source.y = none ∨
        l.target.x = none ∨ l.target.y = none) ∧
    ((∀ l ∈ links, l.source.x ≠ none ∧ l.source.y ≠ none ∧
        l.target.x ≠ none ∧ l.target.y ≠ none) →
      ticked links nodes = .ok
        { x1 := links.map (fun l => (l.source.x).getD 0)
          y1 := links.map (fun l => (l.source.y).getD 0)
          x2 := links.map (fun l => (l.target.x).getD 0)
          y2 := links.map (fun l => (l.target.y).getD 0)
          transforms := nodes.map (fun n => (n.x, n.y)) }) :=
  ⟨ticked_error_iff links nodes, ticked_ok links nodes⟩

/-- Witness for C9: a link with fully defined endpoints and a node with
a partially defined position tick successfully, writing the endpoint
coordinates and the transform. -/
theorem claim_C9_witness :
    ticked [⟨⟨1, 1, some 10, some 20, none, none⟩, ⟨1, 1, some 30, some 40, none, none⟩⟩]
        [⟨1, 1, some 5, none, none, none⟩] = .ok
      { x1 := [10], y1 := [20], x2 := [30], y2 := [40]
        transforms := [(some 5, none)] } := by
  have h := (claim_C9_ticked
      [⟨⟨1, 1, some 10, some 20, none, none⟩, ⟨1, 1, some 30, some 40, none, none⟩⟩]
      [⟨1, 1, some 5, none, none, none⟩]).2 (by simp)
  simpa using h

/-- C10: every `CVItem` reachable in the tree built by the data module
has strictly positive `relSize` and `relDistance`, and the root has
`relSize = 1` and `relDistance = 1`. -/
theorem claim_C10_positive :
    (Data.treeItems Data.dataTree).Forall
        (fun it => 0 < it.relSize ∧ 0 < it.relDistance) ∧
      Data.rootItem.relSize = 1 ∧ Data.rootItem.relDistance = 1 :=
  ⟨List.forall_iff_forall_mem.mpr Data.dataTree_allPos, rfl, rfl⟩
